import Mathlib

/-!
Verification of the incremental content-addressed backup/restore engine
(`backup.py`) against its natural-language specification.

The engine is shallowly embedded: file contents are `List Nat` (byte values),
paths, digests and snapshot identifiers are `String`, and every Python string
operation the source uses (`in`, `split`, `strip`, slicing, `len`, `int(...)`,
f-strings) is modelled by a small structurally recursive Lean function over
`String.toList`, so that every definition evaluates inside the kernel.
The cryptographic hash (`hashlib.sha256`) is a parameter `hash : List Nat →
String`; all statements that need collision-freeness assume it only on the
finitely many contents that actually appear in a run.
-/

namespace BackupPy

/-- Errors a run of the Python program can raise.  `typeError` models
`TypeError` (e.g. `int(None)`, `len(None)`), `valueError` models `ValueError`,
`hashCollision` models the explicit `Exception('Hash collision!!! Aborting
backup')`, and `fileNotFoundError` models `FileNotFoundError` raised by
`shutil.rmtree` on a missing directory. -/
inductive PyErr
  | typeError
  | valueError
  | hashCollision
  | fileNotFoundError
deriving DecidableEq, Repr

/-- Python substring test on lists of characters: `needle` occurs contiguously
inside `hay`.  `infixB [] hay = true` matches Python's `"" in s`. -/
def infixB (needle : List Char) : List Char → Bool
  | [] => needle.isEmpty
  | c :: t => needle.isPrefixOf (c :: t) || infixB needle t

/-- Python's `needle in hay` on strings. -/
def strContains (hay needle : String) : Bool :=
  infixB needle.toList hay.toList

/-- Python's `s.startswith(pre)` / a guard like `fn[0] == '/'`. -/
def strStartsWith (s pre : String) : Bool :=
  pre.toList.isPrefixOf s.toList

/-- Auxiliary splitter: accumulate the current field (reversed) while walking
the character list, starting a new field at each separator. -/
def splitChAux (sep : Char) : List Char → List Char → List String
  | [], acc => [String.mk acc.reverse]
  | c :: t, acc =>
    if c = sep then String.mk acc.reverse :: splitChAux sep t []
    else splitChAux sep t (c :: acc)

/-- Python's `s.split(sep)` for a one-character separator (the source only
splits on `"\t"` and `":"`).  `"".split(sep) = [""]` as in Python. -/
def splitCh (sep : Char) (s : String) : List String :=
  splitChAux sep s.toList []

/-- Python's `s.strip()` (whitespace from both ends). -/
def pyStrip (s : String) : String :=
  String.mk (((s.toList.dropWhile Char.isWhitespace).reverse.dropWhile
    Char.isWhitespace).reverse)

/-- Python's `s[1:]`. -/
def pyDropFirst (s : String) : String :=
  String.mk s.toList.tail

/-- Rendering of an `Optional[str]` inside an f-string: `None` prints as
`"None"`. -/
def pyStrOfOpt : Option String → String
  | none => "None"
  | some s => s

/-- Decimal digits to a number; `none` on a non-digit.  Models the body of
`int()` on the nonnegative decimal snapshot identifiers the program uses. -/
def natOfDigitsAux : List Char → Nat → Option Nat
  | [], acc => some acc
  | c :: t, acc =>
    if c.isDigit then natOfDigitsAux t (acc * 10 + (c.toNat - 48))
    else none

/-- Python's `int(s)` on a decimal string: `ValueError` on a malformed one. -/
def pyIntStr (s : String) : Except PyErr Int :=
  match s.toList with
  | [] => .error .valueError
  | l =>
    match natOfDigitsAux l 0 with
    | some n => .ok (Int.ofNat n)
    | none => .error .valueError

/-- Python's `int(x)` for `x : Optional[str]`: `int(None)` raises `TypeError`
(this is exactly what `backup` does when invoked without a last-backup
cutoff). -/
def pyIntOpt : Option String → Except PyErr Int
  | none => .error .typeError
  | some s => pyIntStr s

/-- Numeric value of a decimal identifier string, `0` on junk (used only as a
termination measure in statements, never by the embedded code). -/
def natVal (s : String) : Nat :=
  (natOfDigitsAux s.toList 0).getD 0

/-! ### Manifest search (`search_manifest_file`, backup.py lines 252-264) -/

/-- The reference extracted from one manifest line: Python's
`leftside = line.split("\t")[0]; leftside.split(":")[1] if ":" in leftside
else leftside`. -/
def refFromLine (line : String) : String :=
  let leftside := (splitCh '\t' line).headD ""
  if strContains leftside ":" then (splitCh ':' leftside).getD 1 ""
  else leftside

/-- Faithful model of `search_manifest_file(lines, fn)`: walk the lines in
order and on the first line for which Python's `str(fn) in line` substring
test holds, return the extracted reference; `None` when no line matches.
Note the source tests substring containment against the whole line (hash
field included), not equality with the entry's path field. -/
def search_manifest_file (lines : List String) (fn : String) : Option String :=
  match lines with
  | [] => none
  | line :: rest =>
    if strContains line fn then some (refFromLine line)
    else search_manifest_file rest fn

/-- The entry path recorded on a manifest line, as `restore` parses it:
`line.strip().split("\t")[1]` (empty when the line has no tab field). -/
def pathOfLine (line : String) : String :=
  (splitCh '\t' (pyStrip line)).getD 1 ""

/-! ### Chain resolution (`recursive_search_for_file`, backup.py 231-249,
and `recursive_restore`, backup.py 200-228)

The filesystem of already-written snapshot archives is abstracted as
`env : String → Option (List String)`, mapping a snapshot identifier to the
lines of the manifest inside `<id>.tar.gz` (`none` when that archive does not
exist).  The source functions recurse on the identifier extracted from the
matched manifest line with no hop limit and no visited set; since such
recursion has no Lean termination argument, they are embedded fuel-indexed:
`none` means the computation did not finish within the given number of hops,
`some r` that the source function returns `r` after at most that many hops. -/

/-- One backup-side chain search, `recursive_search_for_file(fn, dest,
last_backup)`, with explicit fuel.  Mirrors the source exactly: missing
archive → `False`; falsy search result (`None` or `""`) → `False`; a
64-character result is a digest → `True`; otherwise recurse on the extracted
identifier. -/
def recursive_search_for_file (env : String → Option (List String))
    (fn : String) : Nat → String → Option Bool
  | 0, _ => none
  | Nat.succ fuel, last_backup =>
    match env last_backup with
    | none => some false
    | some lines =>
      match search_manifest_file lines fn with
      | none => some false
      | some r =>
        if r.length = 0 then some false
        else if r.length = 64 then some true
        else recursive_search_for_file env fn fuel r

/-- One restore-side chain resolution, `recursive_restore(fn, backup_path,
last_backup, blobs_path)`, with explicit fuel, tracking only the value it
returns (the blob extraction it performs on success is byte-for-byte the
content stored under the returned digest).  Mirrors the source exactly,
including the `len(search_res)` call that raises `TypeError` when
`search_manifest_file` returned `None`. -/
def recursive_restore (env : String → Option (List String))
    (fn : String) : Nat → String → Option (Except PyErr (Option String))
  | 0, _ => none
  | Nat.succ fuel, last_backup =>
    match env last_backup with
    | none => some (.ok none)
    | some lines =>
      match search_manifest_file lines fn with
      | none => some (.error .typeError)
      | some r =>
        if r.length = 64 then some (.ok (some r))
        else if r.length = 0 then some (.ok none)
        else recursive_restore env fn fuel r

/-- The backup-side chain search terminates (returns a definitive answer
within some finite number of hops). -/
def searchTerminates (env : String → Option (List String))
    (fn last_backup : String) : Prop :=
  ∃ fuel, (recursive_search_for_file env fn fuel last_backup).isSome = true

/-- The restore-side chain resolution terminates (returns a definitive
answer, possibly an error, within some finite number of hops). -/
def restoreTerminates (env : String → Option (List String))
    (fn last_backup : String) : Prop :=
  ∃ fuel, (recursive_restore env fn fuel last_backup).isSome = true

/-! ### Backup orchestrator state (`backup`, backup.py lines 43-139)

`backup` maintains three dictionaries/directories:
`manifest : filename → reference-string`, `collision_check : hash → filename`
and the blob store `dest/blobs/<h[0:2]>/<h>` (flattened here to
`digest → content`, the shard prefix being a function of the digest).
Python dicts are embedded as association lists with an overwrite-on-insert
operation; only lookup, key membership and the (sorted) item list are ever
used, so insertion position is irrelevant. -/

/-- Python `d[k] = v` on a dict embedded as an association list: remove any
existing binding of `k`, append the new one. -/
def dictInsert (l : List (String × α)) (k : String) (v : α) :
    List (String × α) :=
  l.filter (fun e => !(e.1 == k)) ++ [(k, v)]

/-- The mutable state of one `backup` run. -/
structure BState where
  manifest : List (String × String)
  collision : List (String × String)
  blobs : List (String × List Nat)
deriving DecidableEq, Repr

/-- The chained reference string `f"lb:{last_backup}"` recorded for a file
proven unchanged since the previous snapshot. -/
def chainRef (cutoff : Option String) : String :=
  "lb:" ++ pyStrOfOpt cutoff

/-- Model of `files_identical_py(f1, f2)` (backup.py 318-325): feed the fixed
sentinel byte `'0'` (value 48) into each file's running sha256 state — i.e.
hash each content extended by that byte — and compare the digests. -/
def files_identical_py (hash : List Nat → String) (c1 c2 : List Nat) : Bool :=
  hash (c1 ++ [48]) == hash (c2 ++ [48])

/-- Full processing of one file (backup.py lines 98-112): store the blob if
no blob for the digest exists yet, record the `Direct` manifest entry, and
remember the file's path in `collision_check`. -/
def recordDirect (world : String → List Nat)
    (s : BState) (p h : String) : BState :=
  { manifest := dictInsert s.manifest p h
    collision := dictInsert s.collision h p
    blobs :=
      if (s.blobs.lookup h).isSome then s.blobs
      else dictInsert s.blobs h (world p) }

/-- One iteration of the per-file loop of `backup` (backup.py lines 70-112),
for an already-enumerated, non-directory file.  Parameters:
  * `hash` — the content hasher (`file_hash`, sha256 hexdigest);
  * `world` — content of the file at each path (the filesystem, constant
    during the run; `collision_check` stores paths and `files_identical`
    re-reads them, hence the lookup through `world`);
  * `ex` — the injected exclusion predicate (`make_predicate(excludes)`);
  * `rs` — the result of `recursive_search_for_file(fn, dest, last_backup)`
    for this run's destination and cutoff (abstracted to a predicate on the
    path; its own definition is `recursive_search_for_file` above);
  * `cutoff` — `last_backup` (`None` when the CLI passed no cutoff).
A file is `(path, mtime)`.  I/O failures of `copy` (logged-and-skip in the
source) are outside the model; the collision `Exception` and the `TypeError`
from `int(None)` are the modelled aborts. -/
def backupStep (hash : List Nat → String) (world : String → List Nat)
    (ex rs : String → Bool) (cutoff : Option String)
    (s : BState) (f : String × Int) : Except PyErr BState :=
  if ex f.1 then .ok s
  else
    match pyIntOpt cutoff with
    | .error e => .error e
    | .ok n =>
      if decide (f.2 < n) && rs f.1 then
        .ok { s with manifest := dictInsert s.manifest f.1 (chainRef cutoff) }
      else
        match s.collision.lookup (hash (world f.1)) with
        | some p0 =>
          if files_identical_py hash (world f.1) (world p0) then
            .ok (recordDirect world s f.1 (hash (world f.1)))
          else .error .hashCollision
        | none => .ok (recordDirect world s f.1 (hash (world f.1)))

/-- The whole per-file loop of `backup` over the enumerated files, in
enumeration order; the first raised exception aborts the run. -/
def backupLoop (hash : List Nat → String) (world : String → List Nat)
    (ex rs : String → Bool) (cutoff : Option String) :
    BState → List (String × Int) → Except PyErr BState
  | s, [] => .ok s
  | s, f :: fs =>
    match backupStep hash world ex rs cutoff s f with
    | .ok s' => backupLoop hash world ex rs cutoff s' fs
    | .error e => .error e

/-- Initial state of a run: empty manifest and collision table, `b0` the
blobs already physically present under `dest/blobs` when the run starts
(empty for a fresh destination). -/
def initState (b0 : List (String × List Nat)) : BState :=
  ⟨[], [], b0⟩

/-! ### Source enumeration (backup.py line 70) -/

/-- Final path component (everything after the last `/`). -/
def lastComponent (p : String) : String :=
  String.mk ((p.toList.reverse.takeWhile (fun c => !(c == '/'))).reverse)

/-- Does a file name contain a dot — the `fnmatch` meaning of the glob
pattern `*.*` (each `*` may match the empty string). -/
def hasDotName (s : String) : Bool :=
  s.toList.contains '.'

/-- The set of regular files `source.glob("**/*.*")` yields, out of the
regular files actually present under the tree: `**` crosses any directories,
but the final component must match `*.*`, i.e. contain a dot. -/
def globEnumerate (files : List String) : List String :=
  files.filter (fun p => hasDotName (lastComponent p))

/-! ### Manifest serialization (backup.py lines 114-120) -/

/-- Lexicographic `≤` on character lists by code point — Python string
comparison. -/
def lexLe : List Char → List Char → Bool
  | [], _ => true
  | _ :: _, [] => false
  | a :: as, b :: bs => if a = b then lexLe as bs else decide (a < b)

/-- Python tuple comparison on `(key, value)` string pairs, as used by
`sorted(manifest.items())`. -/
def pairLeB (a b : String × String) : Bool :=
  if a.1 = b.1 then lexLe a.2.toList b.2.toList else lexLe a.1.toList b.1.toList

/-- The manifest file `backup` writes (backup.py 117-120), line by line:
one `f"{hsh}\t{fn}"` line per entry of `sorted(manifest.items())`, then the
control line `f"lastBackup:{last_backup}:"` — note the trailing colon in the
f-string, and that `None` renders as `"None"`. -/
def serializeManifest (m : List (String × String)) (cutoff : Option String) :
    List String :=
  (List.insertionSort (fun a b => pairLeB a b = true) m).map
    (fun e => e.2 ++ "\t" ++ e.1)
    ++ ["lastBackup:" ++ pyStrOfOpt cutoff ++ ":"]

/-! ### Purge (backup.py lines 122-128) -/

/-- The purge step: for each shard directory, `d.glob("*.*")` enumerates the
files whose *name contains a dot*, and those not occurring as a key of
`collision_check` are unlinked.  A blob survives iff its name has no dot or
is a `collision_check` key. -/
def purgeBlobs (blobs : List (String × List Nat))
    (collision : List (String × String)) : List (String × List Nat) :=
  blobs.filter (fun b => !(hasDotName b.1) || (b.1 ∈ collision.map Prod.fst))

/-! ### End of a backup run (backup.py lines 114-139) -/

/-- Truth value of `manifests_path.exists` as written at backup.py line 136:
the attribute access without a call yields the bound method object, which is
always truthy. -/
def boundMethodTruthy : Bool := true

/-- `shutil.rmtree(p)`: raises `FileNotFoundError` when `p` does not exist. -/
def rmtreeModel (present : Bool) : Except PyErr Unit :=
  if present then .ok () else .error .fileNotFoundError

/-- The tail of `backup` after the per-file loop (backup.py 114-139): write
the serialized manifest, optionally purge, pack the blob store into the
archive (abstracted to returning its contents), remove the scratch `blobs`
directory, then execute `if manifests_path.exists: rmtree(manifests_path)`.
On success the archive contents (manifest lines and surviving blobs) are the
durable artifact. -/
def backupFinish (s : BState) (cutoff : Option String)
    (purgeFlag manifestsPresent : Bool) :
    Except PyErr (List String × List (String × List Nat)) :=
  let mlines := serializeManifest s.manifest cutoff
  let blobs := if purgeFlag then purgeBlobs s.blobs s.collision else s.blobs
  match (if boundMethodTruthy then rmtreeModel manifestsPresent else .ok ()) with
  | .ok _ => .ok (mlines, blobs)
  | .error e => .error e

/-! ### Restore (backup.py lines 142-197) -/

/-- `pathlib`'s `dest / p`: when the right operand is absolute it replaces
the left one entirely. -/
def pyPathJoin (dest p : String) : String :=
  if strStartsWith p "/" then p else dest ++ "/" ++ p

/-- Where `restore` writes the file recorded under path `fn` (backup.py
183-186): strip one leading `'/'` if present, then join onto the destination
with `pathlib`'s `/`. -/
def restoreTargetPath (dest fn : String) : String :=
  pyPathJoin dest (if strStartsWith fn "/" then pyDropFirst fn else fn)

/-- The write `restore` performs for one already-parsed manifest entry
`(reference, path)` whose reference is direct (does not contain `"lb:"`,
backup.py line 172): copy the blob stored under the reference to the target
path.  `none` when the entry is chained (resolved through
`recursive_restore` instead) or the blob is absent (the `copy` would
raise). -/
def restoreEntryWrite (blobs : List (String × List Nat)) (dest r fn : String) :
    Option (String × List Nat) :=
  if strContains r "lb:" then none
  else
    match blobs.lookup r with
    | some c => some (restoreTargetPath dest fn, c)
    | none => none

/-! ### Statement-level definitions -/

/-- Every file content a run can touch: the content of each enumerated file,
and the contents of the blobs already present at the destination.  The
collision-freeness of sha256 is assumed only on this finite set. -/
def runContents (world : String → List Nat) (files : List (String × Int))
    (b0 : List (String × List Nat)) : List (List Nat) :=
  files.map (fun f => world f.1) ++ b0.map (fun e => e.2)

/-- Run invariant tying the manifest to the blob store:
every stored blob's content hashes to its name and is drawn from `RC`, and
every manifest entry is either the chained reference of this run or the
digest of the entry path's content, with a blob stored under that digest. -/
def InvC (hash : List Nat → String) (world : String → List Nat)
    (cutoff : Option String) (RC : List (List Nat)) (s : BState) : Prop :=
  (∀ e ∈ s.blobs, hash e.2 = e.1 ∧ e.2 ∈ RC) ∧
  (∀ e ∈ s.manifest, e.2 = chainRef cutoff ∨
    (e.2 = hash (world e.1) ∧ world e.1 ∈ RC ∧
      (s.blobs.lookup e.2).isSome = true))

/-- A raw lowercase hexadecimal digest, as `hashlib.sha256(...).hexdigest()`
produces: 64 characters drawn from `0-9a-f`. -/
def isHex64 (s : String) : Bool :=
  (s.toList.length == 64) &&
    s.toList.all (fun c => c.isDigit || ('a' ≤ c && c ≤ 'f'))

/-- A cyclic snapshot environment: archive `7.tar.gz` exists and its manifest
records file `f` as chained to snapshot `7` itself. -/
def cycEnv : String → Option (List String) :=
  fun lb => if lb = "7" then some ["lb:7\tf"] else none

/-- A well-formed 64-character lowercase hexadecimal digest, used as concrete
input. -/
def hexDigestSample : String :=
  "0123456789abcdef0123456789abcdef0123456789abcdef0123456789abcdef"

/-- A two-hop acyclic snapshot environment: snapshot `2` records file `g` as
chained to snapshot `1`, whose manifest records a direct digest for it. -/
def chainEnvTwo : String → Option (List String) :=
  fun lb =>
    if lb = "2" then some ["lb:1\tg"]
    else if lb = "1" then some [hexDigestSample ++ "\tg"]
    else none

/-! ## Helper lemmas -/

theorem lookup_cons_pair (k a : String) (b : α) (t : List (String × α)) :
    List.lookup k ((a, b) :: t) = if k = a then some b else List.lookup k t := by
  by_cases h : k = a
  · simp [List.lookup, h]
  · simp [List.lookup, beq_eq_false_iff_ne.mpr h, h]

theorem lookup_dictInsert (l : List (String × α)) (k k' : String) (v : α) :
    (dictInsert l k v).lookup k' = if k' = k then some v else l.lookup k' := by
  induction l with
  | nil =>
    show List.lookup k' [(k, v)] = _
    rw [lookup_cons_pair]
  | cons e t ih =>
    obtain ⟨a, b⟩ := e
    by_cases hek : a = k
    · subst hek
      have h1 : dictInsert ((a, b) :: t) a v = dictInsert t a v := by
        simp [dictInsert, List.filter]
      rw [h1, ih]
      by_cases h : k' = a
      · simp [h]
      · simp [lookup_cons_pair, h]
    · have h1 : dictInsert ((a, b) :: t) k v = (a, b) :: dictInsert t k v := by
        simp [dictInsert, List.filter, beq_eq_false_iff_ne.mpr hek]
      rw [h1]
      by_cases hke : k' = a
      · subst hke
        simp [lookup_cons_pair, hek]
      · simp [lookup_cons_pair, hke, ih]

theorem mem_dictInsert {l : List (String × α)} {k : String} {v : α} {e}
    (h : e ∈ dictInsert l k v) : e = (k, v) ∨ e ∈ l := by
  unfold dictInsert at h
  rcases List.mem_append.1 h with h | h
  · exact Or.inr (List.mem_of_mem_filter h)
  · simp only [List.mem_singleton] at h
    exact Or.inl h

theorem mem_of_lookup {l : List (String × α)} {k : String} {v : α}
    (h : l.lookup k = some v) : (k, v) ∈ l := by
  induction l with
  | nil => simp [List.lookup] at h
  | cons e t ih =>
    obtain ⟨a, b⟩ := e
    by_cases hk : k = a
    · subst hk
      rw [lookup_cons_pair, if_pos rfl] at h
      cases h
      exact List.mem_cons_self _ _
    · rw [lookup_cons_pair, if_neg hk] at h
      exact List.mem_cons_of_mem _ (ih h)

theorem lookup_isSome_dictInsert {l : List (String × α)} (k k' : String)
    (v : α) (h : (l.lookup k').isSome = true) :
    ((dictInsert l k v).lookup k').isSome = true := by
  rw [lookup_dictInsert]
  split <;> simp [h]

theorem infixB_of_isPrefixOf {n l : List Char} (h : n.isPrefixOf l = true) :
    infixB n l = true := by
  cases l with
  | nil =>
    cases n with
    | nil => rfl
    | cons c t => simp [List.isPrefixOf] at h
  | cons c t => simp [infixB, h]

theorem chainRef_contains_lb (cutoff : Option String) :
    strContains (chainRef cutoff) "lb:" = true := by
  apply infixB_of_isPrefixOf
  have h : (chainRef cutoff).toList
      = 'l' :: 'b' :: ':' :: (pyStrOfOpt cutoff).toList := by
    show ("lb:" ++ pyStrOfOpt cutoff).data = _
    simp [String.toList]
  show List.isPrefixOf "lb:".toList (chainRef cutoff).toList = true
  rw [show "lb:".toList = ['l', 'b', ':'] from rfl, h]
  simp [List.isPrefixOf]

theorem backupLoop_append (hash : List Nat → String)
    (world : String → List Nat) (ex rs : String → Bool)
    (cutoff : Option String) (s : BState) (l1 l2 : List (String × Int)) :
    backupLoop hash world ex rs cutoff s (l1 ++ l2) =
      match backupLoop hash world ex rs cutoff s l1 with
      | .ok s' => backupLoop hash world ex rs cutoff s' l2
      | .error e => .error e := by
  induction l1 generalizing s with
  | nil => rfl
  | cons f t ih =>
    simp only [List.cons_append, backupLoop]
    cases backupStep hash world ex rs cutoff s f with
    | ok s' => exact ih s'
    | error e => rfl

theorem recordDirect_blobs_lookup (world : String → List Nat) (s : BState)
    (p h : String) :
    (((recordDirect world s p h).blobs.lookup h)).isSome = true := by
  unfold recordDirect
  dsimp only
  by_cases hb : (s.blobs.lookup h).isSome = true
  · simp [hb]
  · simp only [Bool.not_eq_true] at hb
    simp [hb, lookup_dictInsert]

theorem recordDirect_blobs_mono (world : String → List Nat) (s : BState)
    (p h r : String) (hr : (s.blobs.lookup r).isSome = true) :
    (((recordDirect world s p h).blobs.lookup r)).isSome = true := by
  unfold recordDirect
  dsimp only
  by_cases hb : (s.blobs.lookup h).isSome = true
  · simp [hb, hr]
  · simp only [Bool.not_eq_true] at hb
    simp only [hb, Bool.false_eq_true, if_false]
    exact lookup_isSome_dictInsert _ _ _ hr

theorem invC_recordDirect (hash : List Nat → String)
    (world : String → List Nat) (cutoff : Option String)
    (RC : List (List Nat)) {s : BState} {p : String}
    (hRC : world p ∈ RC) (hInv : InvC hash world cutoff RC s) :
    InvC hash world cutoff RC (recordDirect world s p (hash (world p))) := by
  obtain ⟨hB, hM⟩ := hInv
  constructor
  · intro e he
    unfold recordDirect at he
    dsimp only at he
    by_cases hb : (s.blobs.lookup (hash (world p))).isSome = true
    · rw [if_pos hb] at he
      exact hB e he
    · simp only [Bool.not_eq_true] at hb
      rw [if_neg (by simp [hb])] at he
      rcases mem_dictInsert he with h | h
      · subst h
        exact ⟨rfl, hRC⟩
      · exact hB e h
  · intro e he
    unfold recordDirect at he
    dsimp only at he
    rcases mem_dictInsert he with h | h
    · subst h
      exact Or.inr ⟨rfl, hRC, recordDirect_blobs_lookup world s p _⟩
    · rcases hM e h with h1 | ⟨h1, h2, h3⟩
      · exact Or.inl h1
      · exact Or.inr ⟨h1, h2, recordDirect_blobs_mono world s p _ _ h3⟩

theorem invC_step (hash : List Nat → String) (world : String → List Nat)
    (ex rs : String → Bool) (cutoff : Option String) (RC : List (List Nat))
    {s s' : BState} {f : String × Int}
    (hRC : world f.1 ∈ RC)
    (hInv : InvC hash world cutoff RC s)
    (hstep : backupStep hash world ex rs cutoff s f = .ok s') :
    InvC hash world cutoff RC s' := by
  unfold backupStep at hstep
  split at hstep
  · cases hstep
    exact hInv
  · split at hstep
    · cases hstep
    · split at hstep
      · cases hstep
        obtain ⟨hB, hM⟩ := hInv
        refine ⟨hB, ?_⟩
        intro e he
        rcases mem_dictInsert he with h | h
        · subst h
          exact Or.inl rfl
        · exact hM e h
      · split at hstep
        · split at hstep
          · cases hstep
            exact invC_recordDirect hash world cutoff RC hRC hInv
          · cases hstep
        · cases hstep
          exact invC_recordDirect hash world cutoff RC hRC hInv

theorem invC_loop (hash : List Nat → String) (world : String → List Nat)
    (ex rs : String → Bool) (cutoff : Option String) (RC : List (List Nat))
    {s s' : BState} {fs : List (String × Int)}
    (hRC : ∀ f ∈ fs, world f.1 ∈ RC)
    (hInv : InvC hash world cutoff RC s)
    (hrun : backupLoop hash world ex rs cutoff s fs = .ok s') :
    InvC hash world cutoff RC s' := by
  induction fs generalizing s with
  | nil =>
    cases hrun
    exact hInv
  | cons f t ih =>
    rw [backupLoop] at hrun
    cases hstep : backupStep hash world ex rs cutoff s f with
    | ok s1 =>
      rw [hstep] at hrun
      exact ih (fun g hg => hRC g (List.mem_cons_of_mem _ hg))
        (invC_step hash world ex rs cutoff RC
          (hRC f (List.mem_cons_self _ _)) hInv hstep) hrun
    | error e =>
      rw [hstep] at hrun
      cases hrun

theorem invC_of_run (hash : List Nat → String) (world : String → List Nat)
    (ex rs : String → Bool) (cutoff : Option String)
    (b0 : List (String × List Nat)) (files : List (String × Int))
    {s : BState}
    (hwf : ∀ e ∈ b0, hash e.2 = e.1)
    (hrun : backupLoop hash world ex rs cutoff (initState b0) files = .ok s) :
    InvC hash world cutoff (runContents world files b0) s := by
  have hInv0 : InvC hash world cutoff (runContents world files b0)
      (initState b0) := by
    constructor
    · intro e he
      exact ⟨hwf e he, List.mem_append.2 (Or.inr (List.mem_map.2 ⟨e, he, rfl⟩))⟩
    · intro e he
      simp [initState] at he
  exact invC_loop hash world ex rs cutoff _
    (fun f hf => List.mem_append.2 (Or.inl (List.mem_map.2 ⟨f, hf, rfl⟩)))
    hInv0 hrun

/-! ## Claim C1 -/

/-- C1: for every file that `backup` records in the snapshot with a Direct
digest reference (a manifest value restore classifies as direct, i.e. not
containing `"lb:"`), restoring that snapshot with `restore` writes at the
destination a file whose byte content equals the original source file's byte
content — given that the hash is collision-free on the finitely many contents
of the run and that blobs already present at the destination are well-formed
(each stored under its own digest). -/
theorem C1_direct_entry_restores_original_bytes
    (hash : List Nat → String) (world : String → List Nat)
    (ex rs : String → Bool) (cutoff : Option String)
    (b0 : List (String × List Nat)) (files : List (String × Int))
    (s : BState) (dest p r : String)
    (hwf : ∀ e ∈ b0, hash e.2 = e.1)
    (hinj : ∀ c1 ∈ runContents world files b0,
      ∀ c2 ∈ runContents world files b0, hash c1 = hash c2 → c1 = c2)
    (hrun : backupLoop hash world ex rs cutoff (initState b0) files = .ok s)
    (hentry : s.manifest.lookup p = some r)
    (hdirect : strContains r "lb:" = false) :
    restoreEntryWrite s.blobs dest r p =
      some (restoreTargetPath dest p, world p) := by
  have hInv := invC_of_run hash world ex rs cutoff b0 files hwf hrun
  have hmem : (p, r) ∈ s.manifest := mem_of_lookup hentry
  rcases hInv.2 _ hmem with h1 | ⟨h1, h2, h3⟩
  · have h1' : r = chainRef cutoff := h1
    rw [h1', chainRef_contains_lb] at hdirect
    cases hdirect
  · have h1' : r = hash (world p) := h1
    have h2' : world p ∈ runContents world files b0 := h2
    have h3' : (s.blobs.lookup r).isSome = true := h3
    obtain ⟨c, hc⟩ := Option.isSome_iff_exists.1 h3'
    have hcm := hInv.1 _ (mem_of_lookup hc)
    have hcm1 : hash c = r := hcm.1
    have hcm2 : c ∈ runContents world files b0 := hcm.2
    have hceq : c = world p :=
      hinj c hcm2 (world p) h2' (hcm1.trans h1')
    unfold restoreEntryWrite
    rw [hdirect]
    simp [hc, hceq]

/-- Witness for C1: a run over one file `a.txt` with content `[1, 2]`,
cutoff `3`, fresh destination; its Direct entry restores to the original
bytes. -/
theorem C1_direct_entry_restores_original_bytes_witness :
    restoreEntryWrite [("d1", [1, 2])] "out" "d1" "a.txt" =
      some (restoreTargetPath "out" "a.txt", [1, 2]) := by
  have h := C1_direct_entry_restores_original_bytes
    (fun c => if c = [1, 2] then "d1" else "d0")
    (fun q => if q = "a.txt" then [1, 2] else [])
    (fun _ => false) (fun _ => false) (some "3") [] [("a.txt", 5)]
    ⟨[("a.txt", "d1")], [("d1", "a.txt")], [("d1", [1, 2])]⟩ "out" "a.txt" "d1"
    (by decide) (by decide) rfl rfl rfl
  exact h

/-! ## Claim C2 -/

/-- C2: when a file's digest equals the digest of a file already recorded
earlier in the same run (a `collision_check` hit) and the sentinel
verification of `files_identical_py` — hashing each content extended by the
fixed byte `'0'` — fails, the step raises the collision exception and the
whole run aborts with it, whatever files were still to come: the second file
is never recorded, no manifest is ever written. -/
theorem C2_collision_aborts_run
    (hash : List Nat → String) (world : String → List Nat)
    (ex rs : String → Bool) (cutoff : Option String)
    (b0 : List (String × List Nat)) (fs1 rest : List (String × Int))
    (s : BState) (p p0 : String) (mt : Int) (n : Int)
    (hpre : backupLoop hash world ex rs cutoff (initState b0) fs1 = .ok s)
    (hex : ex p = false)
    (hcut : pyIntOpt cutoff = .ok n)
    (hnoskip : (decide (mt < n) && rs p) = false)
    (hcol : s.collision.lookup (hash (world p)) = some p0)
    (hdiff : files_identical_py hash (world p) (world p0) = false) :
    backupStep hash world ex rs cutoff s (p, mt) = .error .hashCollision ∧
    backupLoop hash world ex rs cutoff (initState b0)
        (fs1 ++ (p, mt) :: rest) = .error .hashCollision := by
  have hstep : backupStep hash world ex rs cutoff s (p, mt)
      = .error .hashCollision := by
    unfold backupStep
    rw [if_neg (by simp [hex]), hcut]
    dsimp only
    rw [if_neg (by simp [hnoskip]), hcol]
    dsimp only
    rw [if_neg (by simp [hdiff])]
  refine ⟨hstep, ?_⟩
  rw [backupLoop_append, hpre]
  dsimp only
  rw [backupLoop, hstep]

/-- Witness for C2: files `a` (content `[1]`) and `b` (content `[2]`) collide
under a hash that sends both to `"h"` but separates the sentinel-extended
contents, so the run aborts. -/
theorem C2_collision_aborts_run_witness :
    backupStep
        (fun c => if c = [1] || c = [2] then "h"
          else if c = [1, 48] then "x" else "y")
        (fun q => if q = "a" then [1] else [2])
        (fun _ => false) (fun _ => false) (some "9")
        ⟨[("a", "h")], [("h", "a")], [("h", [1])]⟩ ("b", 5)
      = .error .hashCollision ∧
    backupLoop
        (fun c => if c = [1] || c = [2] then "h"
          else if c = [1, 48] then "x" else "y")
        (fun q => if q = "a" then [1] else [2])
        (fun _ => false) (fun _ => false) (some "9")
        (initState []) [("a", 5), ("b", 5)]
      = .error .hashCollision := by
  have h := C2_collision_aborts_run
    (fun c => if c = [1] || c = [2] then "h"
      else if c = [1, 48] then "x" else "y")
    (fun q => if q = "a" then [1] else [2])
    (fun _ => false) (fun _ => false) (some "9") [] [("a", 5)] []
    ⟨[("a", "h")], [("h", "a")], [("h", [1])]⟩ "b" "a" 5 9
    rfl rfl rfl rfl rfl rfl
  exact h

/-! ## Claim C3 -/

/-- C3 counterexample: a manifest whose single entry records the path
`/a/bc`.  Searching for the different path `/a/b` must, per the claim, fail —
but the source's substring test matches the line and returns that entry's
reference. -/
theorem C3_counterexample :
    search_manifest_file ["aaaa\t/a/bc"] "/a/b" = some "aaaa" ∧
    pathOfLine "aaaa\t/a/bc" ≠ "/a/b" := by
  exact ⟨rfl, by decide⟩

/-- C3 amended: `search_manifest_file` returns the reference extracted from
the first line *containing* the requested path as a substring (Python's
`str(fn) in line`, tested against the whole line, reference field included),
and returns nothing exactly when no line contains it; it may therefore
return the reference of an entry recorded for a different path. -/
theorem C3_search_is_substring_match (lines : List String) (fn : String) :
    search_manifest_file lines fn
        = (lines.find? (fun l => strContains l fn)).map refFromLine ∧
    (search_manifest_file lines fn = none ↔
      ∀ l ∈ lines, strContains l fn = false) := by
  induction lines with
  | nil => simp [search_manifest_file]
  | cons line rest ih =>
    by_cases h : strContains line fn = true
    · have hf : List.find? (fun l => strContains l fn) (line :: rest)
          = some line := by simp [List.find?, h]
      have hs : search_manifest_file (line :: rest) fn
          = some (refFromLine line) := by simp [search_manifest_file, h]
      refine ⟨by rw [hs, hf]; rfl, ?_⟩
      rw [hs]
      constructor
      · intro hc
        exact absurd hc (by simp)
      · intro hall
        exact absurd (hall line (List.mem_cons_self _ _)) (by simp [h])
    · have h' : strContains line fn = false := by simpa using h
      have hf : List.find? (fun l => strContains l fn) (line :: rest)
          = List.find? (fun l => strContains l fn) rest := by
        simp [List.find?, h']
      have hs : search_manifest_file (line :: rest) fn
          = search_manifest_file rest fn := by
        simp [search_manifest_file, h']
      refine ⟨by rw [hs, hf, ih.1], ?_⟩
      rw [hs, ih.2]
      constructor
      · intro hall l hl
        rcases List.mem_cons.1 hl with rfl | hl
        · exact h'
        · exact hall l hl
      · intro hall l hl
        exact hall l (List.mem_cons_of_mem _ hl)

/-! ## Claim C4 -/

theorem cycEnv_search_step (n : Nat) :
    recursive_search_for_file cycEnv "f" (n + 1) "7"
      = recursive_search_for_file cycEnv "f" n "7" := rfl

theorem cycEnv_search_none :
    ∀ n, recursive_search_for_file cycEnv "f" n "7" = none
  | 0 => rfl
  | n + 1 => (cycEnv_search_step n).trans (cycEnv_search_none n)

/-- C4 counterexample: on the cyclic chain environment — snapshot `7` whose
manifest records file `f` as `lb:7`, i.e. chained to itself —
`recursive_search_for_file` never returns for any amount of fuel: the source
has no hop limit and no cycle set, so the claimed bounded-hop error never
happens and the recursion runs forever. -/
theorem C4_counterexample : ¬ searchTerminates cycEnv "f" "7" := by
  rintro ⟨fuel, hf⟩
  rw [cycEnv_search_none fuel] at hf
  simp at hf

theorem rsff_isSome_of_decreasing (env : String → Option (List String))
    (fn : String) (μ : String → Nat)
    (hdec : ∀ lb lines r, env lb = some lines →
      search_manifest_file lines fn = some r →
      r.length ≠ 0 → r.length ≠ 64 → μ r < μ lb) :
    ∀ N lb, μ lb < N →
      (recursive_search_for_file env fn N lb).isSome = true := by
  intro N
  induction N with
  | zero =>
    intro lb h
    exact absurd h (Nat.not_lt_zero _)
  | succ N ih =>
    intro lb h
    simp only [recursive_search_for_file]
    cases henv : env lb with
    | none => simp
    | some lines =>
      dsimp only
      cases hsr : search_manifest_file lines fn with
      | none => simp
      | some r =>
        dsimp only
        by_cases h0 : r.length = 0
        · simp [h0]
        · by_cases h64 : r.length = 64
          · simp [h0, h64]
          · rw [if_neg h0, if_neg h64]
            exact ih r (lt_of_lt_of_le (hdec lb lines r henv hsr h0 h64)
              (Nat.lt_succ_iff.1 h))

theorem rres_isSome_of_decreasing (env : String → Option (List String))
    (fn : String) (μ : String → Nat)
    (hdec : ∀ lb lines r, env lb = some lines →
      search_manifest_file lines fn = some r →
      r.length ≠ 0 → r.length ≠ 64 → μ r < μ lb) :
    ∀ N lb, μ lb < N →
      (recursive_restore env fn N lb).isSome = true := by
  intro N
  induction N with
  | zero =>
    intro lb h
    exact absurd h (Nat.not_lt_zero _)
  | succ N ih =>
    intro lb h
    simp only [recursive_restore]
    cases henv : env lb with
    | none => simp
    | some lines =>
      dsimp only
      cases hsr : search_manifest_file lines fn with
      | none => simp
      | some r =>
        dsimp only
        by_cases h64 : r.length = 64
        · simp [h64]
        · by_cases h0 : r.length = 0
          · simp [h0, h64]
          · rw [if_neg h64, if_neg h0]
            exact ih r (lt_of_lt_of_le (hdec lb lines r henv hsr h0 h64)
              (Nat.lt_succ_iff.1 h))

/-- C4 amended: the source enforces no hop limit and no cycle set, so chain
resolution need not terminate in general (see the cyclic counterexample);
it does terminate — on both the backup side and the restore side, within an
explicit bound of hops — whenever the snapshot identifiers extracted along
the chain strictly decrease under some measure, as they do for the
timestamp-named snapshots the program itself creates. -/
theorem C4_decreasing_chain_terminates
    (env : String → Option (List String)) (fn lb : String) (μ : String → Nat)
    (hdec : ∀ lb' lines r, env lb' = some lines →
      search_manifest_file lines fn = some r →
      r.length ≠ 0 → r.length ≠ 64 → μ r < μ lb') :
    (recursive_search_for_file env fn (μ lb + 1) lb).isSome = true ∧
    (recursive_restore env fn (μ lb + 1) lb).isSome = true :=
  ⟨rsff_isSome_of_decreasing env fn μ hdec (μ lb + 1) lb (Nat.lt_succ_self _),
   rres_isSome_of_decreasing env fn μ hdec (μ lb + 1) lb (Nat.lt_succ_self _)⟩

/-- Witness for C4 amended: the two-hop environment `2 → 1 → direct digest`
with the numeric value of the identifier as the decreasing measure. -/
theorem C4_decreasing_chain_terminates_witness :
    (recursive_search_for_file chainEnvTwo "g" (natVal "2" + 1) "2").isSome
        = true ∧
    (recursive_restore chainEnvTwo "g" (natVal "2" + 1) "2").isSome = true := by
  refine C4_decreasing_chain_terminates chainEnvTwo "g" "2" natVal ?_
  intro lb lines r henv hsr h0 h64
  by_cases h2 : lb = "2"
  · subst h2
    rw [show chainEnvTwo "2" = some ["lb:1\tg"] from rfl] at henv
    cases henv
    rw [show search_manifest_file ["lb:1\tg"] "g" = some "1" from rfl] at hsr
    cases hsr
    decide
  · by_cases h1 : lb = "1"
    · subst h1
      rw [show chainEnvTwo "1" = some [hexDigestSample ++ "\tg"] from rfl]
        at henv
      cases henv
      rw [show search_manifest_file [hexDigestSample ++ "\tg"] "g"
        = some hexDigestSample from rfl] at hsr
      cases hsr
      exact absurd (by decide) h64
    · rw [show chainEnvTwo lb = none from by simp [chainEnvTwo, h2, h1]]
        at henv
      cases henv

/-! ## Claim C5 -/

/-- C5: the claim says that with no previous snapshot/cutoff the backup falls
through to full processing; in fact the staleness check evaluates
`int(last_backup)` on every file, and with `last_backup=None` (the default,
and what the CLI passes when invoked without a cutoff) `int(None)` raises
`TypeError`, aborting the whole run at the very first enumerated file —
nothing is hashed, stored or recorded. -/
theorem C5_no_cutoff_raises_type_error :
    backupLoop (fun _ => "d0") (fun _ => [1]) (fun _ => false) (fun _ => false)
        none (initState []) [("a.txt", 5)] = .error .typeError ∧
    backupStep (fun _ => "d0") (fun _ => [1]) (fun _ => false) (fun _ => false)
        none (initState []) ("a.txt", 5) = .error .typeError :=
  ⟨rfl, rfl⟩

/-! ## Claim C6 -/

/-- C6: the claim says purge deletes every blob whose digest is unreferenced
by this run's manifest; in fact purge enumerates shard contents with
`d.glob("*.*")`, which matches only names containing a dot — a 64-character
hex digest never does — so purge deletes nothing: an unreferenced blob
survives untouched. -/
theorem C6_purge_keeps_unreferenced_blob :
    hasDotName hexDigestSample = false ∧
    purgeBlobs [(hexDigestSample, [7])] [] = [(hexDigestSample, [7])] :=
  ⟨rfl, rfl⟩

/-! ## Claim C7 -/

/-- C7: the claim says every regular file under the tree, whatever its name,
is enumerated; in fact `source.glob("**/*.*")` only yields files whose final
component contains a dot, so a file named `README` is silently never
enumerated: it gets neither a manifest entry nor a logged skip, as the run
below shows. -/
theorem C7_dotless_file_silently_missed :
    globEnumerate ["README", "b/photo.jpg"] = ["b/photo.jpg"] ∧
    backupLoop (fun _ => "d0") (fun _ => [3]) (fun _ => false) (fun _ => false)
        (some "0") (initState [])
        ((globEnumerate ["README", "b/photo.jpg"]).map (fun p => (p, 5)))
      = .ok ⟨[("b/photo.jpg", "d0")], [("d0", "b/photo.jpg")], [("d0", [3])]⟩ :=
  ⟨rfl, rfl⟩

/-! ## Claim C9 -/

/-- C9: the claim says a run that reaches the end of source processing
removes the scratch directories and returns normally, leaving the archive;
in fact line 136 of the source reads `if manifests_path.exists:` — the bound
method, not its call, which is always truthy — so `rmtree` runs
unconditionally and raises `FileNotFoundError` whenever `dest/manifests` was
never created (e.g. no chain lookup opened an older archive), aborting
`backup` after the archive was written; with the directory present the same
run returns normally. -/
theorem C9_cleanup_crashes_when_manifests_dir_absent :
    backupFinish ⟨[("a.txt", "ff")], [("ff", "a.txt")], [("ff", [1])]⟩
        (some "1") false false = .error .fileNotFoundError ∧
    backupFinish ⟨[("a.txt", "ff")], [("ff", "a.txt")], [("ff", [1])]⟩
        (some "1") false true
      = .ok (["ff\ta.txt", "lastBackup:1:"], [("ff", [1])]) :=
  ⟨rfl, rfl⟩

/-! ## Claim C8 -/

theorem lexLe_total : ∀ x y : List Char, lexLe x y = true ∨ lexLe y x = true
  | [], _ => Or.inl rfl
  | _ :: _, [] => Or.inr rfl
  | a :: as, b :: bs => by
    by_cases hab : a = b
    · subst hab
      rcases lexLe_total as bs with h | h
      · exact Or.inl (by simp [lexLe, h])
      · exact Or.inr (by simp [lexLe, h])
    · rcases Ne.lt_or_lt hab with h | h
      · exact Or.inl (by simp [lexLe, hab, h])
      · exact Or.inr (by simp [lexLe, Ne.symm hab, h])

theorem lexLe_trans :
    ∀ x y z : List Char,
      lexLe x y = true → lexLe y z = true → lexLe x z = true
  | [], _, _, _, _ => rfl
  | _ :: _, [], _, h, _ => by cases h
  | _ :: _, _ :: _, [], _, h => by cases h
  | a :: as, b :: bs, c :: cs, h1, h2 => by
    by_cases hab : a = b
    · subst hab
      by_cases hac : a = c
      · subst hac
        simp only [lexLe, if_pos rfl] at h1 h2 ⊢
        exact lexLe_trans _ _ _ h1 h2
      · simp only [lexLe, if_neg hac] at h2 ⊢
        exact h2
    · simp only [lexLe, if_neg hab] at h1
      have hab' : a < b := of_decide_eq_true h1
      by_cases hbc : b = c
      · subst hbc
        simp only [lexLe, if_neg hab]
        exact h1
      · simp only [lexLe, if_neg hbc] at h2
        have hbc' : b < c := of_decide_eq_true h2
        have hac' : a < c := lt_trans hab' hbc'
        simp only [lexLe, if_neg (ne_of_lt hac')]
        exact decide_eq_true hac'

theorem lexLe_antisymm :
    ∀ x y : List Char, lexLe x y = true → lexLe y x = true → x = y
  | [], [], _, _ => rfl
  | [], _ :: _, _, h2 => by cases h2
  | _ :: _, [], h1, _ => by cases h1
  | a :: as, b :: bs, h1, h2 => by
    by_cases hab : a = b
    · subst hab
      simp only [lexLe, if_pos rfl] at h1 h2
      rw [lexLe_antisymm as bs h1 h2]
    · simp only [lexLe, if_neg hab, if_neg (Ne.symm hab)] at h1 h2
      exact absurd (lt_trans (of_decide_eq_true h1) (of_decide_eq_true h2))
        (lt_irrefl a)

theorem pairLeB_total (a b : String × String) :
    pairLeB a b = true ∨ pairLeB b a = true := by
  unfold pairLeB
  by_cases h : a.1 = b.1
  · rw [if_pos h, if_pos h.symm]
    exact lexLe_total _ _
  · rw [if_neg h, if_neg (Ne.symm h)]
    exact lexLe_total _ _

theorem string_eq_of_lexLe_antisymm {a b : String}
    (h1 : lexLe a.toList b.toList = true) (h2 : lexLe b.toList a.toList = true) :
    a = b := by
  apply String.ext
  exact lexLe_antisymm _ _ h1 h2

theorem pairLeB_trans {a b c : String × String}
    (h1 : pairLeB a b = true) (h2 : pairLeB b c = true) :
    pairLeB a c = true := by
  unfold pairLeB at h1 h2 ⊢
  by_cases hab : a.1 = b.1
  · rw [if_pos hab] at h1
    by_cases hbc : b.1 = c.1
    · rw [if_pos hbc] at h2
      rw [if_pos (hab.trans hbc)]
      exact lexLe_trans _ _ _ h1 h2
    · rw [if_neg hbc] at h2
      rw [if_neg (hab ▸ hbc), hab]
      exact h2
  · rw [if_neg hab] at h1
    by_cases hbc : b.1 = c.1
    · rw [if_pos hbc] at h2
      rw [if_neg (hbc ▸ hab), ← hbc]
      exact h1
    · rw [if_neg hbc] at h2
      have hac : a.1 ≠ c.1 := by
        intro hc
        exact hab (string_eq_of_lexLe_antisymm h1 (hc ▸ h2))
      rw [if_neg hac]
      exact lexLe_trans _ _ _ h1 h2

instance : IsTotal (String × String) (fun a b => pairLeB a b = true) :=
  ⟨pairLeB_total⟩

instance : IsTrans (String × String) (fun a b => pairLeB a b = true) :=
  ⟨fun _ _ _ => pairLeB_trans⟩

/-- C8 counterexample: the control line `backup` writes carries a trailing
colon — `f"lastBackup:{last_backup}:"` — so it is `lastBackup:123:`, not the
claimed `lastBackup:123`. -/
theorem C8_counterexample :
    (serializeManifest [("a.txt", "ff")] (some "123")).getLast?
        = some "lastBackup:123:" ∧
    "lastBackup:123:" ≠ "lastBackup:" ++ "123" := by
  exact ⟨rfl, by decide⟩

/-- C8 amended: the serialized manifest of a completed run is one
tab-delimited `reference<TAB>path` line per recorded entry — the entries
arranged by `sorted(...)` under Python's pair order, a permutation of the
recorded entries sorted by path — followed by exactly one trailing control
line `lastBackup:<id>:` (trailing colon; `<id>` rendered `None` when no
cutoff was given), where each recorded reference is either a digest produced
by the hasher (a raw lowercase 64-hex string, when the hasher is
well-formed on the run's contents) or the tagged chain pointer
`lb:<id>`. -/
theorem C8_manifest_serialization_format
    (hash : List Nat → String) (world : String → List Nat)
    (ex rs : String → Bool) (cutoff : Option String)
    (b0 : List (String × List Nat)) (files : List (String × Int))
    (s : BState)
    (hwf : ∀ e ∈ b0, hash e.2 = e.1)
    (hhex : ∀ c ∈ runContents world files b0, isHex64 (hash c) = true)
    (hrun : backupLoop hash world ex rs cutoff (initState b0) files = .ok s) :
    (serializeManifest s.manifest cutoff).getLast?
        = some ("lastBackup:" ++ pyStrOfOpt cutoff ++ ":") ∧
    (serializeManifest s.manifest cutoff).dropLast
        = (List.insertionSort (fun a b => pairLeB a b = true) s.manifest).map
            (fun e => e.2 ++ "\t" ++ e.1) ∧
    List.Sorted (fun a b => pairLeB a b = true)
        (List.insertionSort (fun a b => pairLeB a b = true) s.manifest) ∧
    (List.insertionSort (fun a b => pairLeB a b = true) s.manifest).Perm
        s.manifest ∧
    (serializeManifest s.manifest cutoff).length = s.manifest.length + 1 ∧
    (∀ e ∈ s.manifest, e.2 = chainRef cutoff ∨ isHex64 e.2 = true) := by
  have hInv := invC_of_run hash world ex rs cutoff b0 files hwf hrun
  refine ⟨List.getLast?_concat _, List.dropLast_concat,
    List.sorted_insertionSort _ _, List.perm_insertionSort _ _, ?_, ?_⟩
  · unfold serializeManifest
    rw [List.length_append, List.length_map,
      (List.perm_insertionSort _ _).length_eq]
    rfl
  · intro e he
    rcases hInv.2 e he with h1 | ⟨h1, h2, _⟩
    · exact Or.inl h1
    · refine Or.inr ?_
      rw [h1]
      exact hhex _ h2

/-- Witness for C8 at a one-file run whose hasher yields a 64-hex digest. -/
theorem C8_manifest_serialization_format_witness :
    (serializeManifest [("a.txt", hexDigestSample)] (some "3")).getLast?
        = some ("lastBackup:" ++ pyStrOfOpt (some "3") ++ ":") ∧
    (serializeManifest [("a.txt", hexDigestSample)] (some "3")).dropLast
        = (List.insertionSort (fun a b => pairLeB a b = true)
              [("a.txt", hexDigestSample)]).map
            (fun e => e.2 ++ "\t" ++ e.1) ∧
    List.Sorted (fun a b => pairLeB a b = true)
        (List.insertionSort (fun a b => pairLeB a b = true)
          [("a.txt", hexDigestSample)]) ∧
    (List.insertionSort (fun a b => pairLeB a b = true)
        [("a.txt", hexDigestSample)]).Perm [("a.txt", hexDigestSample)] ∧
    (serializeManifest [("a.txt", hexDigestSample)] (some "3")).length
        = [("a.txt", hexDigestSample)].length + 1 ∧
    (∀ e ∈ [("a.txt", hexDigestSample)],
      e.2 = chainRef (some "3") ∨ isHex64 e.2 = true) := by
  have h := C8_manifest_serialization_format
    (fun _ => hexDigestSample)
    (fun q => if q = "a.txt" then [1, 2] else [])
    (fun _ => false) (fun _ => false) (some "3") [] [("a.txt", 5)]
    ⟨[("a.txt", hexDigestSample)], [(hexDigestSample, "a.txt")],
      [(hexDigestSample, [1, 2])]⟩
    (by decide) (by decide) rfl
  exact h

/-! ## Claim C10 -/

/-- C10 counterexample: the manifest path `//etc/x` begins with `/`, but
after stripping exactly one slash the remainder `/etc/x` is still absolute,
and `pathlib`'s join discards the destination: `restore` writes to `/etc/x`,
outside the destination directory `out`. -/
theorem C10_counterexample :
    strStartsWith "//etc/x" "/" = true ∧
    restoreTargetPath "out" "//etc/x" = "/etc/x" ∧
    strStartsWith (restoreTargetPath "out" "//etc/x") ("out" ++ "/")
      = false := by
  refine ⟨by decide, by decide, by decide⟩

theorem isPrefixOf_append_self (l m : List Char) :
    l.isPrefixOf (l ++ m) = true := by
  induction l with
  | nil => simp [List.isPrefixOf]
  | cons c t ih => simp [List.isPrefixOf, ih]

theorem toList_of_startsWith_slash {fn : String}
    (h : strStartsWith fn "/" = true) : fn.toList = '/' :: fn.toList.tail := by
  unfold strStartsWith at h
  cases hl : fn.toList with
  | nil =>
    rw [hl] at h
    cases h
  | cons c t =>
    rw [hl] at h
    simp [List.isPrefixOf] at h
    subst h
    rfl

theorem dropFirst_not_slash {fn : String}
    (habs : strStartsWith fn "/" = true)
    (hnot2 : strStartsWith fn "//" = false) :
    strStartsWith (pyDropFirst fn) "/" = false := by
  have ht := toList_of_startsWith_slash habs
  have h2 : strStartsWith fn "//"
      = List.isPrefixOf ['/'] fn.toList.tail := by
    show List.isPrefixOf ['/', '/'] fn.toList = _
    rw [ht]
    simp [List.isPrefixOf]
  show List.isPrefixOf ['/'] fn.toList.tail = false
  rw [← h2]
  exact hnot2

/-- C10 amended: for a manifest entry whose recorded path begins with a
single `/` (not `//`), `restore` writes inside the destination directory at
the relative path obtained by removing that one leading slash, and never to
the recorded absolute path itself; a recorded path beginning with `//`
remains absolute after the strip, and the `pathlib` join then discards the
destination entirely (the counterexample). -/
theorem C10_single_slash_restores_inside_dest
    (dest fn : String)
    (hdest : dest ≠ "")
    (habs : strStartsWith fn "/" = true)
    (hnot2 : strStartsWith fn "//" = false) :
    restoreTargetPath dest fn = dest ++ "/" ++ pyDropFirst fn ∧
    strStartsWith (restoreTargetPath dest fn) (dest ++ "/") = true ∧
    restoreTargetPath dest fn ≠ fn := by
  have hrel := dropFirst_not_slash habs hnot2
  have hjoin : restoreTargetPath dest fn = dest ++ "/" ++ pyDropFirst fn := by
    unfold restoreTargetPath pyPathJoin
    rw [if_pos habs, if_neg (by rw [hrel]; exact Bool.false_ne_true)]
  refine ⟨hjoin, ?_, ?_⟩
  · rw [hjoin]
    show List.isPrefixOf (dest ++ "/").toList
      ((dest ++ "/" ++ pyDropFirst fn)).toList = true
    show List.isPrefixOf (dest ++ "/").data
      ((dest ++ "/" ++ pyDropFirst fn)).data = true
    rw [String.data_append (dest ++ "/") (pyDropFirst fn)]
    exact isPrefixOf_append_self _ _
  · rw [hjoin]
    intro heq
    have hd : (dest ++ "/" ++ pyDropFirst fn).data = fn.data :=
      congrArg String.data heq
    rw [String.data_append, String.data_append] at hd
    have hlen := congrArg List.length hd
    have htl : fn.data = '/' :: fn.data.tail := toList_of_startsWith_slash habs
    rw [List.length_append, List.length_append] at hlen
    have hpd : (pyDropFirst fn).data = fn.data.tail := rfl
    rw [hpd] at hlen
    have hfn : fn.data.length = fn.data.tail.length + 1 := by
      conv at htl in fn.data => skip
      rw [show fn.data.length = ('/' :: fn.data.tail).length from by rw [← htl]]
      simp
    rw [hfn] at hlen
    have hdl : dest.data.length = 0 := by
      have h1 : ("/" : String).data.length = 1 := rfl
      omega
    have : dest.data = [] := List.eq_nil_of_length_eq_zero hdl
    exact hdest (String.ext (this.trans rfl))

/-- Witness for C10 amended at destination `out` and recorded path `/a/b`. -/
theorem C10_single_slash_restores_inside_dest_witness :
    restoreTargetPath "out" "/a/b" = "out" ++ "/" ++ pyDropFirst "/a/b" ∧
    strStartsWith (restoreTargetPath "out" "/a/b") ("out" ++ "/") = true ∧
    restoreTargetPath "out" "/a/b" ≠ "/a/b" := by
  exact C10_single_slash_restores_inside_dest "out" "/a/b"
    (by decide) (by decide) (by decide)

end BackupPy
